import Mathlib

/-!
# Verification of the pocket-agent-os task-orchestration engine

Shallow embedding of the orchestration core:

* `src/core/nodes/progress.py` — `ProgressGuardNode`, `TaskSelectorNode`,
  `MarkTaskCompleteNode`;
* `src/core/nodes/routing.py` — `AgentSelectorNode`;
* `src/core/store/file_store.py` — `FileStore` (save / backup rotation /
  checkpoint).

Python dicts holding task data are embedded as structures whose fields are
`Option`-valued where the corresponding key may be absent (`dict.get` with a
default).  Python's stable `list.sort` is embedded as a stable insertion
sort (`pySort`).  Wall-clock timestamps are embedded as a strictly
increasing abstract counter; a timestamp is rendered into a file name by an
injective encoding (`natChars`, the time component of the name is opaque to
every property proved here).  Python exceptions are embedded as
`Except String`.
-/

namespace PocketAgentOS

/-! ## Stable sort, embedding Python's `list.sort`

Python's `list.sort(key=...)` is stable and sorts ascending by the key.
`pySort le` is the stable sort with respect to a boolean total preorder
`le`, realised as insertion sort: an element is inserted *before* the first
element it is `le`-related to, so earlier elements win ties. -/

/-- Insert `x` into `l`, before the first element `y` with `le x y`. -/
def pyInsert (le : α → α → Bool) (x : α) : List α → List α
  | [] => [x]
  | y :: ys => if le x y then x :: y :: ys else y :: pyInsert le x ys

/-- Stable insertion sort: embedding of Python's stable `list.sort`. -/
def pySort (le : α → α → Bool) : List α → List α
  | [] => []
  | x :: xs => pyInsert le x (pySort le xs)

/-! ## Task model

`TaskSelectorNode` (src/core/nodes/progress.py) accepts tasks that are
either Python dicts or bare strings.  A dict's possibly-absent keys become
`Option` fields (`none` embeds an absent key, `.getD` embeds `dict.get`
with a default). -/

/-- A task dict.  Fields mirror the keys read by the orchestration nodes. -/
structure TaskDict where
  id : Option String := none
  description : Option String := none
  priority : Option Int := none
  depends_on : List String := []
  retry : Bool := false
deriving DecidableEq, Repr

/-- A task as stored in `progress["tasks"]`: a dict or a bare string. -/
inductive PyTask where
  | str : String → PyTask
  | dict : TaskDict → PyTask
deriving DecidableEq, Repr

/-- `if isinstance(task, str): task = {"id": task, "description": task}`. -/
def normalizeTask : PyTask → TaskDict
  | .str s => { id := some s, description := some s }
  | .dict d => d

/-- `task.get("id", task.get("description", "unknown"))`. -/
def TaskDict.taskId (d : TaskDict) : String :=
  d.id.getD (d.description.getD "unknown")

/-! ## TaskSelectorNode -/

/-- The inputs gathered by `TaskSelectorNode.prep`.  `task_filter` embeds
both the substring form and the callable form of the Python filter as a
predicate on the normalized task. -/
structure SelectorInputs where
  tasks : List PyTask
  completed : List String
  failed : List String
  printed_tasks : List String
  delegation_mode : String
  task_filter : Option (TaskDict → Bool)

/-- `if task_filter: ...` — a task passes when no filter is given or the
filter accepts it. -/
def passesFilter (filt : Option (TaskDict → Bool)) (d : TaskDict) : Bool :=
  match filt with
  | some f => f d
  | none => true

/-- `[dep for dep in dependencies if dep not in completed]`. -/
def unmetDeps (completed : List String) (deps : List String) : List String :=
  deps.filter (fun dep => !completed.contains dep)

/-- The three lists built by the classification loop in
`TaskSelectorNode.exec`. -/
structure Buckets where
  available : List TaskDict
  blocked : List TaskDict
  printedPending : List TaskDict
deriving Repr

/-- The `for task in tasks` classification loop of `TaskSelectorNode.exec`:
skip completed tasks; in batch mode divert already-printed tasks; skip
failed tasks without `retry`; skip filtered-out tasks; divert tasks with
unmet dependencies to `blocked`; keep the rest in `available`. -/
def classifyTasks (inp : SelectorInputs) : List PyTask → Buckets
  | [] => ⟨[], [], []⟩
  | t :: ts =>
    let rest := classifyTasks inp ts
    let task := normalizeTask t
    let task_id := task.taskId
    if inp.completed.contains task_id then rest
    else if inp.delegation_mode == "batch" && inp.printed_tasks.contains task_id then
      { rest with printedPending := task :: rest.printedPending }
    else if inp.failed.contains task_id && !task.retry then rest
    else if !passesFilter inp.task_filter task then rest
    else if task.depends_on.isEmpty then
      { rest with available := task :: rest.available }
    else if (unmetDeps inp.completed task.depends_on).isEmpty then
      { rest with available := task :: rest.available }
    else
      { rest with blocked := task :: rest.blocked }

/-- The sort key `(-t.get("priority", 0), tasks.index(t) if t in tasks else 999)`. -/
def sortKey (tasks : List PyTask) (d : TaskDict) : Int × Nat :=
  (-(d.priority.getD 0),
   if tasks.contains (PyTask.dict d) then
     tasks.findIdx (fun u => u == PyTask.dict d)
   else 999)

/-- Ascending lexicographic comparison of sort keys, as Python compares
the key tuples. -/
def keyLE (tasks : List PyTask) (t1 t2 : TaskDict) : Bool :=
  let k1 := sortKey tasks t1
  let k2 := sortKey tasks t2
  decide (k1.1 < k2.1) || (decide (k1.1 = k2.1) && decide (k1.2 ≤ k2.2))

/-- The result record built by `TaskSelectorNode.exec`. -/
structure SelectorResult where
  selected_task : Option TaskDict
  remaining_count : Nat
  blocked_count : Nat
  printed_count : Nat
  all_printed : Bool
deriving DecidableEq, Repr

/-- `TaskSelectorNode.exec`: classify, count, detect the batch
all-printed condition, and select the head of the available tasks sorted
by `(-priority, original index)`. -/
def selectorExec (inp : SelectorInputs) : SelectorResult :=
  let b := classifyTasks inp inp.tasks
  { selected_task := (pySort (keyLE inp.tasks) b.available).head?
    remaining_count := b.available.length + b.blocked.length
    blocked_count := b.blocked.length
    printed_count := b.printedPending.length
    all_printed :=
      inp.delegation_mode == "batch" && b.printedPending.length > 0 &&
        b.available.length == 0 }

/-- The outcome string returned by `TaskSelectorNode.post`. -/
def selectorPost (r : SelectorResult) : String :=
  if r.selected_task.isSome then "task_selected"
  else if r.all_printed then "all_printed"
  else if r.blocked_count > 0 then "all_blocked"
  else "all_complete"

/-! ### Classification of a single task

`classifyOne` records which branch of the classification loop a task
takes; `classifyTasks_eq` shows the loop builds its three lists by
filtering on it.  `depBlockedTask` is the spec-level notion of a
dependency-blocked task: not completed, not diverted as batch-printed,
not skipped as failed-without-retry, passing the filter, and having at
least one unmet dependency. -/

/-- The branch the classification loop takes for one task. -/
inductive Bucket where
  | skip | printed | blocked | avail
deriving DecidableEq, Repr

/-- Which branch of the `TaskSelectorNode.exec` loop a task takes. -/
def classifyOne (inp : SelectorInputs) (t : PyTask) : Bucket :=
  let task := normalizeTask t
  let task_id := task.taskId
  if inp.completed.contains task_id then .skip
  else if inp.delegation_mode == "batch" && inp.printed_tasks.contains task_id then
    .printed
  else if inp.failed.contains task_id && !task.retry then .skip
  else if !passesFilter inp.task_filter task then .skip
  else if task.depends_on.isEmpty then .avail
  else if (unmetDeps inp.completed task.depends_on).isEmpty then .avail
  else .blocked

/-- A task that is pending but cannot run because of an unmet
dependency. -/
def depBlockedTask (inp : SelectorInputs) (t : PyTask) : Bool :=
  let d := normalizeTask t
  !inp.completed.contains d.taskId &&
  !(inp.delegation_mode == "batch" && inp.printed_tasks.contains d.taskId) &&
  !(inp.failed.contains d.taskId && !d.retry) &&
  passesFilter inp.task_filter d &&
  !d.depends_on.isEmpty &&
  !(unmetDeps inp.completed d.depends_on).isEmpty

/-! ## ProgressGuardNode

`ProgressGuardNode.prep` passes `progress.get("completed", [])` — the raw
completed *list* — as `completed_tasks`, and `len(progress.get("tasks", []))`
as `total_tasks`.  `exec` then evaluates
`inputs["completed_tasks"] < inputs["total_tasks"]`, a `list < int`
comparison, whenever the phase being entered is `"complete"`; in Python
this raises `TypeError`.  The embedding returns `Except.error` there. -/

/-- The inputs gathered by `ProgressGuardNode.prep`.  `completed_tasks` is
the completed id *list* exactly as `prep` returns it. -/
structure GuardInputs where
  completed_phases : List String
  current_phase : Option String
  required_phases : List String
  completed_tasks : List String
  total_tasks : Nat

/-- The result record built by `ProgressGuardNode.exec`. -/
structure GuardResult where
  valid : Bool
  missing_phases : List String
  warningCount : Nat
deriving DecidableEq, Repr

/-- `ProgressGuardNode.exec`.  The missing-phase scan mirrors
`for i in range(required.index(current)): ...`; warning strings are
modelled by their count.  Entering the `"complete"` phase reaches the
`list < int` comparison and raises. -/
def guardExec (i : GuardInputs) : Except String GuardResult :=
  let missing :=
    match i.current_phase with
    | some c =>
      if i.required_phases.contains c then
        (i.required_phases.take
            (i.required_phases.findIdx (fun p => p == c))).filter
          (fun p => !i.completed_phases.contains p)
      else []
    | none => []
  let valid := missing.isEmpty
  let warnings1 := if missing.isEmpty then 0 else 1
  if i.current_phase == some "complete" then
    Except.error "TypeError: unsupported comparison between list and int"
  else
    Except.ok { valid := valid, missing_phases := missing, warningCount := warnings1 }

/-- `ProgressGuardNode.post`: route on validity. -/
def guardPost (r : GuardResult) : String :=
  if r.valid then "valid" else "blocked"

/-! ## MarkTaskCompleteNode -/

/-- One entry of `progress["completion_log"]`.  `completed_at` is the
abstract timestamp. -/
structure LogEntry where
  task_id : String
  completed_at : Nat
  notes : Option String
deriving DecidableEq, Repr

/-- The progress dict fields touched by `MarkTaskCompleteNode.exec`. -/
structure Progress where
  completed : List String := []
  completed_phases : List String := []
  completion_log : List LogEntry := []
  current_task : Option String := none
deriving DecidableEq, Repr

/-- `MarkTaskCompleteNode.exec`: append `task_id` to `completed` unless
already present, always append one completion-log entry, clear
`current_task`. -/
def markTaskCompleteExec (task_id : String) (notes : Option String)
    (now : Nat) (p : Progress) : Progress :=
  let p1 :=
    if p.completed.contains task_id then p
    else { p with completed := p.completed ++ [task_id] }
  { p1 with
    completion_log :=
      p1.completion_log ++ [{ task_id := task_id, completed_at := now, notes := notes }]
    current_task := none }

/-! ## FileStore (src/core/store/file_store.py)

The store's backup directory is embedded as a list of named entries with
modification times.  Wall-clock timestamps (`datetime.now().strftime(...)`
for names, `os.path.getmtime` for ordering) are embedded as one strictly
increasing counter: each file creation consumes one tick, so timestamps
are distinct and ordered by creation, as they are on a real run.  The
timestamp component of a file name is rendered by the injective encoding
`natChars`; every property proved here treats it as an opaque tag.
File names are char lists; `str.startswith` / `str.endswith` become
`charsStartWith` / `charsEndWith`. -/

/-- `s.startswith(pre)` on char lists. -/
def charsStartWith : List Char → List Char → Bool
  | _, [] => true
  | [], _ :: _ => false
  | c :: cs, p :: ps => c == p && charsStartWith cs ps

/-- `s.endswith(suffix)` on char lists. -/
def charsEndWith (s suffix : List Char) : Bool :=
  charsStartWith s.reverse suffix.reverse

/-- Injective rendering of the abstract timestamp into a file name. -/
def natChars (n : Nat) : List Char :=
  List.replicate n 'x'

/-- A file in the backup directory: name and modification time. -/
structure DirEntry where
  name : List Char
  mtime : Nat
deriving DecidableEq, Repr

/-- The `FileStore` constructor arguments that matter for persistence. -/
structure FileStoreCfg where
  session_id : List Char
  auto_backup : Bool := true
  max_backups : Nat := 5

/-- The filesystem state a `FileStore` manipulates: whether the primary
session file exists, the backup directory contents, and the clock. -/
structure StoreState where
  primaryExists : Bool := false
  backupDir : List DirEntry := []
  clock : Nat := 0
deriving DecidableEq, Repr

/-- `f"{self.session_id}_{timestamp}.json"` — a rotated backup name. -/
def rotatedName (cfg : FileStoreCfg) (ts : Nat) : List Char :=
  cfg.session_id ++ [ '_' ] ++ natChars ts ++ ".json".data

/-- `f"{self.session_id}_checkpoint{label_part}_{timestamp}.json"`. -/
def checkpointName (cfg : FileStoreCfg) (label : Option String) (ts : Nat) :
    List Char :=
  cfg.session_id ++ "_checkpoint".data ++
    (match label with | some l => [ '_' ] ++ l.data | none => []) ++
    [ '_' ] ++ natChars ts ++ ".json".data

/-- The filter in `FileStore._cleanup_backups`:
`f.startswith(f"{self.session_id}_") and f.endswith(".json")`. -/
def cleanupMatches (cfg : FileStoreCfg) (e : DirEntry) : Bool :=
  charsStartWith e.name (cfg.session_id ++ [ '_' ]) &&
    charsEndWith e.name ".json".data

/-- Lexicographic string comparison, as Python compares the path
components of the `(mtime, path)` tuples. -/
def charListLE : List Char → List Char → Bool
  | [], _ => true
  | _ :: _, [] => false
  | a :: as, b :: bs => decide (a < b) || (a == b && charListLE as bs)

/-- Python sorts the collected `(mtime, path)` pairs ascending. -/
def entryKeyLE (e1 e2 : DirEntry) : Bool :=
  decide (e1.mtime < e2.mtime) ||
    (decide (e1.mtime = e2.mtime) && charListLE e1.name e2.name)

/-- `FileStore._cleanup_backups`: collect the entries matching the
session prefix and `.json` suffix, sort them by `(mtime, path)`, and
`os.remove` the oldest ones while more than `max_backups` remain. -/
def cleanupBackups (cfg : FileStoreCfg) (dir : List DirEntry) : List DirEntry :=
  let backups := dir.filter (cleanupMatches cfg)
  let sortedBackups := pySort entryKeyLE backups
  let removed := sortedBackups.take (backups.length - cfg.max_backups)
  dir.filter (fun e => !(removed.map DirEntry.name).contains e.name)

/-- `FileStore._create_backup`: copy the primary file into the backup
directory under a timestamped name, then run the cleanup. -/
def createBackup (cfg : FileStoreCfg) (st : StoreState) : StoreState :=
  let entry : DirEntry := { name := rotatedName cfg st.clock, mtime := st.clock }
  { st with
    backupDir := cleanupBackups cfg (st.backupDir ++ [entry])
    clock := st.clock + 1 }

/-- `FileStore.save`: back up the existing primary file when
`auto_backup` is on, then (over)write the primary file. -/
def saveStore (cfg : FileStoreCfg) (st : StoreState) : StoreState :=
  let st1 :=
    if cfg.auto_backup && st.primaryExists then createBackup cfg st else st
  { st1 with primaryExists := true }

/-- `FileStore.checkpoint`: write a labelled, timestamped snapshot into
the backup directory; no cleanup runs. -/
def checkpointStore (cfg : FileStoreCfg) (label : Option String)
    (st : StoreState) : StoreState :=
  { st with
    backupDir :=
      st.backupDir ++ [{ name := checkpointName cfg label st.clock, mtime := st.clock }]
    clock := st.clock + 1 }

/-- `N` consecutive `save` calls. -/
def iterSave (cfg : FileStoreCfg) : Nat → StoreState → StoreState
  | 0, st => st
  | n + 1, st => saveStore cfg (iterSave cfg n st)

/-- The empty session directory: no primary file, no backups. -/
def initStore : StoreState := {}

/-- The backup directory holding exactly the rotated backups with
timestamps `start, start+1, ..., start+len-1`, oldest first. -/
def rotatedRange (cfg : FileStoreCfg) (start len : Nat) : List DirEntry :=
  (List.range' start len).map (fun ts => { name := rotatedName cfg ts, mtime := ts })

/-! ## AgentSelectorNode (src/core/nodes/routing.py)

The default routing rules use only these regex features: literal
characters (with `\.` escaping dots), a single optional character (`a?`),
and the end anchor `$`; all matching is `re.IGNORECASE`.  Patterns are
embedded as lists of literal/optional items plus an anchor flag, and
`re.search` as a scan over every start position.  Match/reason strings are
not modelled; a score is the bare integer the code accumulates. -/

/-- One item of a routing file-pattern: a literal or an optional char. -/
inductive PatItem where
  | lit : Char → PatItem
  | opt : Char → PatItem
deriving DecidableEq, Repr

/-- A routing file-pattern: items plus whether it ends with `$`. -/
structure Pat where
  items : List PatItem
  atEnd : Bool := false
deriving DecidableEq, Repr

/-- Case-insensitive char comparison (`re.IGNORECASE`). -/
def charEqCI (a b : Char) : Bool := a.toLower == b.toLower

/-- `str.lower()`, characterwise. -/
def strToLower (s : String) : String := String.mk (s.data.map Char.toLower)

/-- Match a pattern against a text position; `anchored` requires the
match to end at the end of the text (`$`). -/
def matchItems : List PatItem → List Char → Bool → Bool
  | [], rest, anchored => !anchored || rest.isEmpty
  | .lit _ :: _, [], _ => false
  | .lit c :: ps, x :: xs, anchored => charEqCI c x && matchItems ps xs anchored
  | .opt _ :: ps, [], anchored => matchItems ps [] anchored
  | .opt c :: ps, x :: xs, anchored =>
    if charEqCI c x then
      matchItems ps xs anchored || matchItems ps (x :: xs) anchored
    else matchItems ps (x :: xs) anchored

/-- `re.search`: try the pattern at every start position. -/
def reSearchAux (p : Pat) : List Char → Bool
  | [] => matchItems p.items [] p.atEnd
  | c :: cs => matchItems p.items (c :: cs) p.atEnd || reSearchAux p cs

/-- `re.search(pattern, s, re.IGNORECASE)` as a boolean. -/
def reSearch (p : Pat) (s : String) : Bool :=
  reSearchAux p s.data

/-- A pattern that is a plain literal string (optionally `$`-anchored). -/
def litPat (s : String) (anchored : Bool := false) : Pat :=
  { items := s.data.map PatItem.lit, atEnd := anchored }

/-- Python's substring test `needle in hay` on char lists. -/
def containsSub (hay needle : List Char) : Bool :=
  match hay with
  | [] => needle.isEmpty
  | _ :: rest => charsStartWith hay needle || containsSub rest needle

/-- One agent's routing rules: file patterns, keywords, domains. -/
structure AgentRule where
  file_patterns : List Pat := []
  keywords : List String := []
  domains : List String := []
deriving Repr

/-- A rule set: agents in declaration order plus the default agent. -/
structure RuleSet where
  agents : List (String × AgentRule)
  default_agent : String
deriving Repr

/-- `AgentSelectorNode.default_rules`, transcribed. -/
def defaultRules : RuleSet :=
  { agents :=
      [ ("frontend-specialist",
         { file_patterns :=
             [litPat ".tsx" true, litPat ".jsx" true, litPat ".css" true,
              litPat ".scss" true, litPat "components/", litPat "pages/"]
           keywords := ["react", "vue", "component", "ui", "ux", "style",
                        "layout", "responsive"]
           domains := ["frontend"] }),
        ("api-specialist",
         { file_patterns :=
             [litPat "api/", litPat "routes/", litPat "controllers/",
              litPat ".controller.", litPat "endpoint"]
           keywords := ["endpoint", "rest", "graphql", "api", "http",
                        "request", "response"]
           domains := ["api", "backend"] }),
        ("database-specialist",
         { file_patterns :=
             [litPat "migrations/", litPat "models/", litPat "schema",
              litPat ".sql" true, litPat "prisma/"]
           keywords := ["database", "sql", "query", "migration", "schema",
                        "model", "orm"]
           domains := ["database"] }),
        ("test-specialist",
         { file_patterns :=
             [litPat ".test.", litPat ".spec.", litPat "__tests__/",
              litPat "tests/"]
           keywords := ["test", "spec", "coverage", "assertion", "mock",
                        "fixture"]
           domains := ["testing"] }),
        ("devops-specialist",
         { file_patterns :=
             [litPat "docker",
              { items := [.lit '.', .lit 'y', .opt 'a', .lit 'm', .lit 'l'],
                atEnd := true },
              litPat "ci/", litPat ".github/", litPat "kubernetes/"]
           keywords := ["deploy", "docker", "kubernetes", "ci", "cd",
                        "pipeline", "infrastructure"]
           domains := ["devops"] }) ]
    default_agent := "implementer" }

/-- `[a-z-]` under `re.IGNORECASE`: an ASCII letter or a hyphen. -/
def isAgentChar (c : Char) : Bool :=
  ('a' ≤ c.toLower && c.toLower ≤ 'z') || c == '-'

/-- The greedy `[a-z-]+` run at the front of the text. -/
def takeAgentRun : List Char → List Char × List Char
  | [] => ([], [])
  | c :: cs =>
    if isAgentChar c then
      let (run, rest) := takeAgentRun cs
      (c :: run, rest)
    else ([], c :: cs)

/-- Try `\[use:([a-z-]+)\]` (IGNORECASE) at this exact position. -/
def tryOverrideAt : List Char → Option String
  | b :: c1 :: c2 :: c3 :: c4 :: rest =>
    if b == '[' && charEqCI c1 'u' && charEqCI c2 's' && charEqCI c3 'e' &&
        c4 == ':' then
      match takeAgentRun rest with
      | ([], _) => none
      | (run, rest2) =>
        match rest2 with
        | ']' :: _ => some (String.mk run)
        | _ => none
    else none
  | _ => none

/-- `re.search(r'\[use:([a-z-]+)\]', description, re.IGNORECASE)`: the
leftmost match, returning the captured agent name. -/
def searchOverride : List Char → Option String
  | [] => none
  | c :: cs =>
    match tryOverrideAt (c :: cs) with
    | some a => some a
    | none => searchOverride cs

/-- Score contributed by one file pattern: `+10` per matching task file,
`+5` if it also matches inside the (lowercased) description. -/
def scorePattern (files : List String) (desc : String) (p : Pat) : Nat :=
  10 * (files.filter (fun f => reSearch p f)).length +
    (if reSearch p desc then 5 else 0)

/-- One agent's total score: file patterns, then `+3` per keyword found
in the lowercased description, then `+2` per domain present in the
expertise domains. -/
def scoreAgent (files : List String) (desc : String) (doms : List String)
    (r : AgentRule) : Nat :=
  (r.file_patterns.map (scorePattern files desc)).sum +
    3 * (r.keywords.filter (fun k => containsSub desc.data (strToLower k).data)).length +
    2 * (r.domains.filter (fun d => doms.contains d)).length

/-- `max(scores.keys(), key=...)`: the first entry attaining the maximal
score, in rule declaration order. -/
def maxByScore : List (String × Nat) → Option (String × Nat)
  | [] => none
  | x :: xs =>
    some (xs.foldl (fun best y => if y.2 > best.2 then y else best) x)

/-- The inputs gathered by `AgentSelectorNode.prep`.  An empty
`available_agents` embeds Python's falsy "no allow-list". -/
structure RoutingInputs where
  task_description : String
  task_files : List String
  expertise_domains : List String
  available_agents : List String
deriving Repr

/-- The routing decision; match/reason strings are not modelled. -/
structure RoutingResult where
  agent : String
  confidence : String
  scores : List (String × Nat)
deriving DecidableEq, Repr

/-- The `result["scores"]` map built by `AgentSelectorNode.exec`: every
agent passing the allow-list, with its accumulated score, in rule
declaration order. -/
def routingScores (rules : RuleSet) (inp : RoutingInputs) : List (String × Nat) :=
  let desc := strToLower inp.task_description
  let eligible := rules.agents.filter
    (fun ar => inp.available_agents.isEmpty ||
      inp.available_agents.contains ar.1)
  eligible.map
    (fun ar => (ar.1, scoreAgent inp.task_files desc inp.expertise_domains ar.2))

/-- `AgentSelectorNode.exec`: explicit `[use:agent]` override first, then
rule-based scoring over the agents passing the allow-list, then the
score-to-confidence tiers (a zero best score falls back to the rule set's
default agent). -/
def agentSelectorExec (node_default_agent : String) (rules : RuleSet)
    (inp : RoutingInputs) : RoutingResult :=
  match searchOverride inp.task_description.data with
  | some a => { agent := a, confidence := "high", scores := [] }
  | none =>
    let scores := routingScores rules inp
    match maxByScore scores with
    | none =>
      { agent := node_default_agent, confidence := "low", scores := scores }
    | some best =>
      if best.2 ≥ 10 then
        { agent := best.1, confidence := "high", scores := scores }
      else if best.2 ≥ 5 then
        { agent := best.1, confidence := "medium", scores := scores }
      else if best.2 > 0 then
        { agent := best.1, confidence := "low", scores := scores }
      else
        { agent := rules.default_agent, confidence := "low", scores := scores }

/-! ## Concrete inputs used by the claim theorems and witnesses -/

/-- Concrete input for the C2 witness: task b depends on the completed
task a and is selected. -/
def c2Inputs : SelectorInputs :=
  { tasks := [.dict { id := some "a" },
              .dict { id := some "b", depends_on := ["a"], priority := some 5 }],
    completed := ["a"], failed := [], printed_tasks := [],
    delegation_mode := "print", task_filter := none }

/-- Concrete input refuting the tie-order half of C3: a bare-string task
listed first and a dict task listed second, both with default priority 0. -/
def c3Inputs : SelectorInputs :=
  { tasks := [.str "a", .dict { id := some "b" }], completed := [],
    failed := [], printed_tasks := [], delegation_mode := "print",
    task_filter := none }

/-- Concrete input for the C3 witness: two dict tasks with priorities 1
and 5. -/
def c3wInputs : SelectorInputs :=
  { tasks := [.dict { id := some "lo", priority := some 1 },
              .dict { id := some "hi", priority := some 5 }],
    completed := [], failed := [], printed_tasks := [],
    delegation_mode := "print", task_filter := none }

/-- Concrete inputs for the three C4 branches. -/
def c4aInputs : SelectorInputs :=
  { tasks := [.dict { id := some "a" }], completed := ["a"], failed := [],
    printed_tasks := [], delegation_mode := "print", task_filter := none }

def c4bInputs : SelectorInputs :=
  { tasks := [.dict { id := some "b", depends_on := ["x"] }], completed := [],
    failed := [], printed_tasks := [], delegation_mode := "print",
    task_filter := none }

def c4cInputs : SelectorInputs :=
  { tasks := [.dict { id := some "c" }], completed := [], failed := [],
    printed_tasks := ["c"], delegation_mode := "batch", task_filter := none }

/-- Concrete input for the C10 witness: the single task has failed with
no retry flag. -/
def c10Inputs : SelectorInputs :=
  { tasks := [.dict { id := some "f" }], completed := [], failed := ["f"],
    printed_tasks := [], delegation_mode := "print", task_filter := none }

/-- Concrete input for the C7 witness: an override directive embedded in
a description whose keywords would otherwise score the frontend agent. -/
def c7Inputs : RoutingInputs :=
  { task_description := "Restyle the react component [use:api-specialist] now",
    task_files := ["components/App.tsx"], expertise_domains := ["frontend"],
    available_agents := [] }

/-- The C8 scenario input: description `"Fix the React component
styling"`, no files, no expertise, no allow-list. -/
def c8Inputs : RoutingInputs :=
  { task_description := "Fix the React component styling", task_files := [],
    expertise_domains := [], available_agents := [] }

/-- Concrete guard input for C9: the `"complete"` phase is entered with
zero completed tasks out of one. -/
def c9Inputs : GuardInputs :=
  { completed_phases := ["spec", "implement", "verify"],
    current_phase := some "complete",
    required_phases := ["spec", "implement", "verify"],
    completed_tasks := [], total_tasks := 1 }

/-- Concrete store for the FileStore witnesses: session id "s",
`max_backups = 1`, `auto_backup` on. -/
def c5Cfg : FileStoreCfg := { session_id := "s".data, max_backups := 1 }

/-! ## Helper lemmas -/

theorem mem_pyInsert {le : α → α → Bool} {x a : α} :
    ∀ {l : List α}, a ∈ pyInsert le x l ↔ a = x ∨ a ∈ l
  | [] => by simp [pyInsert]
  | y :: ys => by
    by_cases h : le x y = true
    · simp [pyInsert, h]
    · simp only [pyInsert, if_neg h, List.mem_cons, mem_pyInsert (l := ys)]
      tauto

theorem mem_pySort {le : α → α → Bool} {a : α} :
    ∀ {l : List α}, a ∈ pySort le l ↔ a ∈ l
  | [] => Iff.rfl
  | x :: xs => by
    simp only [pySort, mem_pyInsert, List.mem_cons, mem_pySort (l := xs)]

theorem pyInsert_pairwise {le : α → α → Bool}
    (total : ∀ a b, le a b = true ∨ le b a = true)
    (trans : ∀ a b c, le a b = true → le b c = true → le a c = true) :
    ∀ {l : List α} (x : α), l.Pairwise (fun a b => le a b = true) →
      (pyInsert le x l).Pairwise (fun a b => le a b = true)
  | [], x, _ => by simp [pyInsert]
  | y :: ys, x, h => by
    rcases List.pairwise_cons.mp h with ⟨hy, hys⟩
    by_cases hxy : le x y = true
    · rw [pyInsert, if_pos hxy]
      refine List.pairwise_cons.mpr ⟨?_, h⟩
      intro b hb
      rcases List.mem_cons.mp hb with rfl | hb'
      · exact hxy
      · exact trans x y b hxy (hy b hb')
    · rw [pyInsert, if_neg hxy]
      refine List.pairwise_cons.mpr ⟨?_, pyInsert_pairwise total trans x hys⟩
      intro b hb
      rcases mem_pyInsert.mp hb with rfl | hb'
      · rcases total b y with h' | h'
        · exact absurd h' hxy
        · exact h'
      · exact hy b hb'

theorem pySort_pairwise {le : α → α → Bool}
    (total : ∀ a b, le a b = true ∨ le b a = true)
    (trans : ∀ a b c, le a b = true → le b c = true → le a c = true) :
    ∀ (l : List α), (pySort le l).Pairwise (fun a b => le a b = true)
  | [] => List.Pairwise.nil
  | x :: xs => pyInsert_pairwise total trans x (pySort_pairwise total trans xs)

/-- The head of `pySort le l` is `le`-below every element of `l`,
provided `le` is total and transitive. -/
theorem pySort_head_min {le : α → α → Bool}
    (total : ∀ a b, le a b = true ∨ le b a = true)
    (trans : ∀ a b c, le a b = true → le b c = true → le a c = true)
    {l : List α} {x : α} (hx : (pySort le l).head? = some x) :
    ∀ y ∈ l, le x y = true := by
  intro y hy
  have hmem : y ∈ pySort le l := mem_pySort.mpr hy
  have hpw := pySort_pairwise total trans l
  cases hs : pySort le l with
  | nil => rw [hs] at hx; simp at hx
  | cons h t =>
    rw [hs] at hx hmem hpw
    have hx' : h = x := by simpa using hx
    subst hx'
    rcases List.mem_cons.mp hmem with rfl | hy'
    · rcases total y y with h' | h' <;> exact h'
    · exact (List.pairwise_cons.mp hpw).1 y hy'

/-- Sorting an already `le`-sorted list is the identity. -/
theorem pySort_of_sorted {le : α → α → Bool} :
    ∀ {l : List α}, l.Pairwise (fun a b => le a b = true) → pySort le l = l
  | [], _ => rfl
  | a :: as, h => by
    rcases List.pairwise_cons.mp h with ⟨ha, has⟩
    rw [pySort, pySort_of_sorted has]
    cases as with
    | nil => rfl
    | cons b bs =>
      have hb : le a b = true := ha b (List.mem_cons_self b bs)
      simp [pyInsert, hb]

theorem classifyTasks_eq (inp : SelectorInputs) :
    ∀ ts : List PyTask,
      classifyTasks inp ts =
        ⟨(ts.filter (fun t => classifyOne inp t == .avail)).map normalizeTask,
         (ts.filter (fun t => classifyOne inp t == .blocked)).map normalizeTask,
         (ts.filter (fun t => classifyOne inp t == .printed)).map normalizeTask⟩ := by
  intro ts
  induction ts with
  | nil => rfl
  | cons t ts ih =>
    simp only [classifyTasks, classifyOne, ih, List.filter_cons]
    by_cases h1 : (normalizeTask t).taskId ∈ inp.completed
    · simp [h1]
    · by_cases h2 : inp.delegation_mode = "batch" ∧
          (normalizeTask t).taskId ∈ inp.printed_tasks
      · simp [h1, h2]
      · by_cases h3 : (normalizeTask t).taskId ∈ inp.failed ∧
            (normalizeTask t).retry = false
        · simp [h1, h2, h3]
        · by_cases h4 : passesFilter inp.task_filter (normalizeTask t) = false
          · simp [h1, h2, h3, h4]
          · by_cases h5 : (normalizeTask t).depends_on = []
            · simp [h1, h2, h3, h4, h5]
            · by_cases h6 : unmetDeps inp.completed (normalizeTask t).depends_on = []
              · simp [h1, h2, h3, h4, h5, h6]
              · simp [h1, h2, h3, h4, h5, h6]

theorem classifyOne_blocked_iff (inp : SelectorInputs) (t : PyTask) :
    classifyOne inp t = .blocked ↔ depBlockedTask inp t = true := by
  simp only [classifyOne, depBlockedTask]
  split_ifs with h1 h2 h3 h4 h5 h6 <;> (simp_all; try tauto)

theorem classifyOne_avail_unmet (inp : SelectorInputs) (t : PyTask)
    (h : classifyOne inp t = .avail) :
    unmetDeps inp.completed (normalizeTask t).depends_on = [] := by
  simp only [classifyOne] at h
  split_ifs at h with h1 h2 h3 h4 h5 h6
  · rw [List.isEmpty_iff] at h5
    simp [unmetDeps, h5]
  · exact List.isEmpty_iff.mp h6

theorem classifyOne_of_completed (inp : SelectorInputs) (t : PyTask)
    (h : (normalizeTask t).taskId ∈ inp.completed) :
    classifyOne inp t = .skip := by
  simp only [classifyOne]
  simp [h]

/-! ## Claim theorems -/

/-- C2: for every task list, completed-id set, and failed list,
`TaskSelectorNode` never returns a selected task whose `depends_on` list
is not a subset of the completed-id set: any candidate with at least one
dependency id not in `completed` is classified blocked and skipped. -/
theorem taskSelector_dependency_soundness (inp : SelectorInputs) (d : TaskDict)
    (hsel : (selectorExec inp).selected_task = some d) :
    ∀ dep ∈ d.depends_on, dep ∈ inp.completed := by
  intro dep hdep
  have hmem : d ∈ (classifyTasks inp inp.tasks).available := by
    simp only [selectorExec] at hsel
    have hm : d ∈ pySort (keyLE inp.tasks) (classifyTasks inp inp.tasks).available :=
      List.mem_of_mem_head? (by simp [hsel])
    exact mem_pySort.mp hm
  rw [classifyTasks_eq] at hmem
  simp only [List.mem_map, List.mem_filter] at hmem
  obtain ⟨t, ⟨ht, hcls⟩, rfl⟩ := hmem
  have hunmet := classifyOne_avail_unmet inp t (by simpa using hcls)
  simp only [unmetDeps, List.filter_eq_nil_iff] at hunmet
  have hd := hunmet dep hdep
  simpa using hd

/-- C2 witness: at `c2Inputs` the selector picks task b and b's single
dependency is indeed in the completed set. -/
theorem taskSelector_dependency_soundness_witness :
    (selectorExec c2Inputs).selected_task =
        some { id := some "b", depends_on := ["a"], priority := some 5 } ∧
    "a" ∈ c2Inputs.completed :=
  ⟨by decide,
   taskSelector_dependency_soundness c2Inputs
     { id := some "b", depends_on := ["a"], priority := some 5 }
     (by decide) "a" (by decide)⟩

theorem keyLE_total (tasks : List PyTask) :
    ∀ a b, keyLE tasks a b = true ∨ keyLE tasks b a = true := by
  intro a b
  simp only [keyLE, Bool.or_eq_true, Bool.and_eq_true, decide_eq_true_eq]
  omega

theorem keyLE_trans (tasks : List PyTask) :
    ∀ a b c, keyLE tasks a b = true → keyLE tasks b c = true →
      keyLE tasks a c = true := by
  intro a b c hab hbc
  simp only [keyLE, Bool.or_eq_true, Bool.and_eq_true, decide_eq_true_eq]
    at hab hbc ⊢
  omega

theorem available_mem_tasks (inp : SelectorInputs) (d : TaskDict)
    (hd : d ∈ (classifyTasks inp inp.tasks).available)
    (hdict : ∀ t ∈ inp.tasks, ∃ d0, t = PyTask.dict d0) :
    PyTask.dict d ∈ inp.tasks := by
  rw [classifyTasks_eq] at hd
  simp only [List.mem_map, List.mem_filter] at hd
  obtain ⟨t, ⟨ht, _⟩, rfl⟩ := hd
  obtain ⟨d0, rfl⟩ := hdict t ht
  simpa [normalizeTask] using ht

/-- C3 counterexample: both tasks are available with equal priorities and
the string task "a" occurs first in the backlog, yet the selector returns
the dict task "b" — the normalized string task is not found by
`tasks.index` and receives tie-break index 999. -/
theorem taskSelector_tie_order_counterexample :
    (classifyTasks c3Inputs c3Inputs.tasks).available =
      [{ id := some "a", description := some "a" }, { id := some "b" }] ∧
    ({ id := some "a", description := some "a" } : TaskDict).priority.getD 0 =
      ({ id := some "b" } : TaskDict).priority.getD 0 ∧
    (selectorExec c3Inputs).selected_task = some { id := some "b" } :=
  ⟨by decide, by decide, by decide⟩

/-- C3 (amended): whenever two tasks are both available, the selector
returns one with maximal priority — this clause holds for every backlog,
bare-string tasks included, because the first sort-key component is the
priority alone.  On priority ties, for backlogs whose tasks are all
structured (dict) tasks, the one occurring earlier in the original
backlog order wins.  A bare-string task is normalized to a dict that
`tasks.index` cannot find, so it falls to tie-break index 999 and can
lose an equal-priority tie to a later dict task, as the counterexample
shows. -/
theorem taskSelector_priority_order (inp : SelectorInputs) (s : TaskDict)
    (hsel : (selectorExec inp).selected_task = some s) :
    ∀ t ∈ (classifyTasks inp inp.tasks).available,
      t.priority.getD 0 ≤ s.priority.getD 0 ∧
      ((∀ u ∈ inp.tasks, ∃ d0, u = PyTask.dict d0) →
        t.priority.getD 0 = s.priority.getD 0 →
        inp.tasks.findIdx (fun u => u == PyTask.dict s) ≤
          inp.tasks.findIdx (fun u => u == PyTask.dict t)) := by
  intro t ht
  have hhead :
      (pySort (keyLE inp.tasks) (classifyTasks inp inp.tasks).available).head? =
        some s := by
    simpa [selectorExec] using hsel
  have hle := pySort_head_min (keyLE_total inp.tasks) (keyLE_trans inp.tasks)
    hhead t ht
  constructor
  · -- priority dominance, for arbitrary backlogs
    simp only [keyLE, sortKey, Bool.or_eq_true, Bool.and_eq_true,
      decide_eq_true_eq] at hle
    omega
  · -- original-order tie-breaking, for all-dict backlogs
    intro hdict hp
    have hs' : s ∈ pySort (keyLE inp.tasks) (classifyTasks inp inp.tasks).available :=
      List.mem_of_mem_head? (by simp [hhead])
    have hmemS : s ∈ (classifyTasks inp inp.tasks).available := mem_pySort.mp hs'
    have hcontS : inp.tasks.contains (PyTask.dict s) = true := by
      simpa using available_mem_tasks inp s hmemS hdict
    have hcontT : inp.tasks.contains (PyTask.dict t) = true := by
      simpa using available_mem_tasks inp t ht hdict
    simp only [keyLE, sortKey, hcontS, hcontT, if_true, Bool.or_eq_true,
      Bool.and_eq_true, decide_eq_true_eq] at hle
    omega

/-- C3 witness: at `c3wInputs` the selector picks the priority-5 task and
the theorem yields that the other available task's priority is no higher;
at the mixed string/dict backlog `c3Inputs` the dominance clause applies
as well, with no all-dict hypothesis to discharge. -/
theorem taskSelector_priority_order_witness :
    (selectorExec c3wInputs).selected_task =
        some { id := some "hi", priority := some 5 } ∧
    ({ id := some "lo", priority := some 1 } : TaskDict).priority.getD 0 ≤
      ({ id := some "hi", priority := some 5 } : TaskDict).priority.getD 0 ∧
    ({ id := some "a", description := some "a" } : TaskDict).priority.getD 0 ≤
      ({ id := some "b" } : TaskDict).priority.getD 0 :=
  ⟨by decide,
   (taskSelector_priority_order c3wInputs
      { id := some "hi", priority := some 5 } (by decide)
      { id := some "lo", priority := some 1 } (by decide)).1,
   (taskSelector_priority_order c3Inputs
      { id := some "b" } (by decide)
      { id := some "a", description := some "a" } (by decide)).1⟩

theorem classifyOne_printed_of (inp : SelectorInputs) (t : PyTask)
    (hmode : inp.delegation_mode = "batch")
    (hnc : (normalizeTask t).taskId ∉ inp.completed)
    (hp : (normalizeTask t).taskId ∈ inp.printed_tasks) :
    classifyOne inp t = .printed := by
  simp only [classifyOne]
  simp [hmode, hnc, hp]

theorem classifyOne_skip_of_failed (inp : SelectorInputs) (t : PyTask)
    (hf : (normalizeTask t).taskId ∈ inp.failed)
    (hr : (normalizeTask t).retry = false)
    (hnp : ¬(inp.delegation_mode = "batch" ∧
      (normalizeTask t).taskId ∈ inp.printed_tasks)) :
    classifyOne inp t = .skip := by
  simp only [classifyOne]
  by_cases hc : (normalizeTask t).taskId ∈ inp.completed
  · simp [hc]
  · simp [hc, hnp, hf, hr]

/-- C4: terminal outcome classification of `TaskSelectorNode`: a backlog
with zero pending (non-completed) tasks yields `all_complete`; a backlog
where pending tasks exist but every one is dependency-blocked yields
`all_blocked`; in batch delegation mode, when every available task has
already been printed/delegated and no newly eligible task remains, it
yields `all_printed`. -/
theorem taskSelector_terminal_classification (inp : SelectorInputs) :
    ((∀ t ∈ inp.tasks, (normalizeTask t).taskId ∈ inp.completed) →
      selectorPost (selectorExec inp) = "all_complete") ∧
    (((∀ t ∈ inp.tasks, (normalizeTask t).taskId ∈ inp.completed ∨
          depBlockedTask inp t = true) ∧
        ∃ t ∈ inp.tasks, depBlockedTask inp t = true) →
      selectorPost (selectorExec inp) = "all_blocked") ∧
    ((inp.delegation_mode = "batch" ∧
        (∀ t ∈ inp.tasks, (normalizeTask t).taskId ∈ inp.completed ∨
          (normalizeTask t).taskId ∈ inp.printed_tasks) ∧
        ∃ t ∈ inp.tasks, (normalizeTask t).taskId ∉ inp.completed) →
      selectorPost (selectorExec inp) = "all_printed") := by
  refine ⟨?_, ?_, ?_⟩
  · intro h
    have hav : inp.tasks.filter (fun t => classifyOne inp t == Bucket.avail) = [] :=
      List.filter_eq_nil_iff.mpr
        (fun t ht => by simp [classifyOne_of_completed inp t (h t ht)])
    have hbl : inp.tasks.filter (fun t => classifyOne inp t == Bucket.blocked) = [] :=
      List.filter_eq_nil_iff.mpr
        (fun t ht => by simp [classifyOne_of_completed inp t (h t ht)])
    have hpr : inp.tasks.filter (fun t => classifyOne inp t == Bucket.printed) = [] :=
      List.filter_eq_nil_iff.mpr
        (fun t ht => by simp [classifyOne_of_completed inp t (h t ht)])
    simp [selectorPost, selectorExec, classifyTasks_eq, hav, hbl, hpr, pySort]
  · rintro ⟨hall, t0, ht0, hblk⟩
    have hav : inp.tasks.filter (fun t => classifyOne inp t == Bucket.avail) = [] := by
      refine List.filter_eq_nil_iff.mpr (fun t ht => ?_)
      rcases hall t ht with hc | hb
      · simp [classifyOne_of_completed inp t hc]
      · simp [(classifyOne_blocked_iff inp t).mpr hb]
    have hpr : inp.tasks.filter (fun t => classifyOne inp t == Bucket.printed) = [] := by
      refine List.filter_eq_nil_iff.mpr (fun t ht => ?_)
      rcases hall t ht with hc | hb
      · simp [classifyOne_of_completed inp t hc]
      · simp [(classifyOne_blocked_iff inp t).mpr hb]
    have hbl : t0 ∈ inp.tasks.filter (fun t => classifyOne inp t == Bucket.blocked) :=
      List.mem_filter.mpr ⟨ht0, by simp [(classifyOne_blocked_iff inp t0).mpr hblk]⟩
    have hne : inp.tasks.filter (fun t => classifyOne inp t == Bucket.blocked) ≠ [] :=
      List.ne_nil_of_mem hbl
    simp [selectorPost, selectorExec, classifyTasks_eq, hav, hpr, pySort,
      List.length_pos, hne]
  · rintro ⟨hmode, hall, t0, ht0, hpend⟩
    have hav : inp.tasks.filter (fun t => classifyOne inp t == Bucket.avail) = [] := by
      refine List.filter_eq_nil_iff.mpr (fun t ht => ?_)
      rcases hall t ht with hc | hp
      · simp [classifyOne_of_completed inp t hc]
      · by_cases hc2 : (normalizeTask t).taskId ∈ inp.completed
        · simp [classifyOne_of_completed inp t hc2]
        · simp [classifyOne_printed_of inp t hmode hc2 hp]
    have hbl : inp.tasks.filter (fun t => classifyOne inp t == Bucket.blocked) = [] := by
      refine List.filter_eq_nil_iff.mpr (fun t ht => ?_)
      rcases hall t ht with hc | hp
      · simp [classifyOne_of_completed inp t hc]
      · by_cases hc2 : (normalizeTask t).taskId ∈ inp.completed
        · simp [classifyOne_of_completed inp t hc2]
        · simp [classifyOne_printed_of inp t hmode hc2 hp]
    have hprm : t0 ∈ inp.tasks.filter (fun t => classifyOne inp t == Bucket.printed) := by
      have hp0 : (normalizeTask t0).taskId ∈ inp.printed_tasks := by
        rcases hall t0 ht0 with hc | hp
        · exact absurd hc hpend
        · exact hp
      exact List.mem_filter.mpr
        ⟨ht0, by simp [classifyOne_printed_of inp t0 hmode hpend hp0]⟩
    have hne : inp.tasks.filter (fun t => classifyOne inp t == Bucket.printed) ≠ [] :=
      List.ne_nil_of_mem hprm
    simp [selectorPost, selectorExec, classifyTasks_eq, hav, hbl, pySort,
      List.length_pos, hne, hmode]

/-- C4 witness: one concrete backlog per terminal outcome. -/
theorem taskSelector_terminal_classification_witness :
    selectorPost (selectorExec c4aInputs) = "all_complete" ∧
    selectorPost (selectorExec c4bInputs) = "all_blocked" ∧
    selectorPost (selectorExec c4cInputs) = "all_printed" :=
  ⟨(taskSelector_terminal_classification c4aInputs).1 (by decide),
   (taskSelector_terminal_classification c4bInputs).2.1 (by decide),
   (taskSelector_terminal_classification c4cInputs).2.2 (by decide)⟩

/-- C10: for every backlog in which every non-completed task's id appears
in the failed list and none of those tasks has the `retry` flag set (and
no task is dependency-blocked or pending-confirmation), `TaskSelectorNode`
returns the outcome `all_complete`: failed-without-retry tasks are counted
neither as available, nor blocked, nor remaining, so a fully-failed
backlog is indistinguishable from a fully-completed one at the selector's
interface. -/
theorem taskSelector_all_failed_complete (inp : SelectorInputs)
    (h : ∀ t ∈ inp.tasks, (normalizeTask t).taskId ∈ inp.completed ∨
      ((normalizeTask t).taskId ∈ inp.failed ∧ (normalizeTask t).retry = false ∧
        ¬(inp.delegation_mode = "batch" ∧
          (normalizeTask t).taskId ∈ inp.printed_tasks))) :
    selectorPost (selectorExec inp) = "all_complete" ∧
    (selectorExec inp).remaining_count = 0 ∧
    (selectorExec inp).blocked_count = 0 ∧
    (selectorExec inp).selected_task = none := by
  have hskip : ∀ t ∈ inp.tasks, classifyOne inp t = .skip := by
    intro t ht
    rcases h t ht with hc | ⟨hf, hr, hnp⟩
    · exact classifyOne_of_completed inp t hc
    · exact classifyOne_skip_of_failed inp t hf hr hnp
  have hav : inp.tasks.filter (fun t => classifyOne inp t == Bucket.avail) = [] :=
    List.filter_eq_nil_iff.mpr (fun t ht => by simp [hskip t ht])
  have hbl : inp.tasks.filter (fun t => classifyOne inp t == Bucket.blocked) = [] :=
    List.filter_eq_nil_iff.mpr (fun t ht => by simp [hskip t ht])
  have hpr : inp.tasks.filter (fun t => classifyOne inp t == Bucket.printed) = [] :=
    List.filter_eq_nil_iff.mpr (fun t ht => by simp [hskip t ht])
  refine ⟨?_, ?_, ?_, ?_⟩ <;>
    simp [selectorPost, selectorExec, classifyTasks_eq, hav, hbl, hpr, pySort]

/-- C10 witness: a fully-failed backlog reports `all_complete` with no
remaining tasks. -/
theorem taskSelector_all_failed_complete_witness :
    selectorPost (selectorExec c10Inputs) = "all_complete" ∧
    (selectorExec c10Inputs).remaining_count = 0 ∧
    (selectorExec c10Inputs).blocked_count = 0 ∧
    (selectorExec c10Inputs).selected_task = none :=
  taskSelector_all_failed_complete c10Inputs (by decide)

/-- C6: marking the same task id complete twice via `MarkTaskCompleteNode`
leaves the progress completed list with exactly one occurrence of that id,
while the `completion_log` receives exactly one appended entry per call
(two calls append two entries; the log is never deduplicated).  The
hypothesis states the starting progress is well-formed: the id occurs at
most once in `completed` (the list is dedup-on-insert by construction). -/
theorem markTaskComplete_idempotent (p : Progress) (tid : String)
    (n1 n2 : Option String) (t1 t2 : Nat)
    (h : p.completed.count tid ≤ 1) :
    (markTaskCompleteExec tid n2 t2
        (markTaskCompleteExec tid n1 t1 p)).completed.count tid = 1 ∧
    (markTaskCompleteExec tid n1 t1 p).completion_log =
      p.completion_log ++ [{ task_id := tid, completed_at := t1, notes := n1 }] ∧
    (markTaskCompleteExec tid n2 t2
        (markTaskCompleteExec tid n1 t1 p)).completion_log =
      p.completion_log ++
        [{ task_id := tid, completed_at := t1, notes := n1 },
         { task_id := tid, completed_at := t2, notes := n2 }] := by
  by_cases hc : tid ∈ p.completed
  · have hcount : p.completed.count tid = 1 := by
      have hpos := List.count_pos_iff.mpr hc
      omega
    refine ⟨?_, ?_, ?_⟩ <;>
      simp [markTaskCompleteExec, hc, hcount]
  · have hzero : p.completed.count tid = 0 := List.count_eq_zero.mpr hc
    refine ⟨?_, ?_, ?_⟩ <;>
      simp [markTaskCompleteExec, hc, hzero]

/-- C6 witness: two marks of "t1" on an empty progress leave one
occurrence in `completed` and two log entries. -/
theorem markTaskComplete_idempotent_witness :
    (markTaskCompleteExec "t1" none 1
        (markTaskCompleteExec "t1" none 0 {})).completed.count "t1" = 1 ∧
    (markTaskCompleteExec "t1" none 0 ({} : Progress)).completion_log =
      ([] : List LogEntry) ++ [{ task_id := "t1", completed_at := 0, notes := none }] ∧
    (markTaskCompleteExec "t1" none 1
        (markTaskCompleteExec "t1" none 0 {})).completion_log =
      ([] : List LogEntry) ++
        [{ task_id := "t1", completed_at := 0, notes := none },
         { task_id := "t1", completed_at := 1, notes := none }] :=
  markTaskComplete_idempotent {} "t1" none none 0 1 (by decide)

/-- C7: for every task whose description contains an explicit override
directive `[use:agent-name]`, `AgentSelectorNode` selects exactly that
agent with confidence high, regardless of any file-pattern, keyword, or
domain scores any other agent would have received; the override bypasses
rule loading and scoring entirely (the rule set, file list, and expertise
domains are universally quantified and unused). -/
theorem agentSelector_override_wins (node_default : String) (rules : RuleSet)
    (inp : RoutingInputs) (a : String)
    (h : searchOverride inp.task_description.data = some a) :
    (agentSelectorExec node_default rules inp).agent = a ∧
    (agentSelectorExec node_default rules inp).confidence = "high" := by
  simp [agentSelectorExec, h]

/-- C7 witness: the override picks `api-specialist` at high confidence
even though the frontend rules match the description and file. -/
theorem agentSelector_override_wins_witness :
    (agentSelectorExec "implementer" defaultRules c7Inputs).agent =
        "api-specialist" ∧
    (agentSelectorExec "implementer" defaultRules c7Inputs).confidence =
        "high" :=
  agentSelector_override_wins "implementer" defaultRules c7Inputs
    "api-specialist" (by decide)

/-- C8 counterexample: under the default rules the frontend-specialist
scores 6 on the scenario description, not 9 as claimed.  The keyword
`style` is not a substring of the lowercased description: `style` ends in
the letter e, which `styling` lacks at that position, so only `react` and
`component` match, 3 points each. -/
theorem agentSelector_scenario_score_counterexample :
    (agentSelectorExec "implementer" defaultRules c8Inputs).scores =
      [("frontend-specialist", 6), ("api-specialist", 0),
       ("database-specialist", 0), ("test-specialist", 0),
       ("devops-specialist", 0)] ∧
    ("frontend-specialist", 9) ∉
      (agentSelectorExec "implementer" defaultRules c8Inputs).scores :=
  ⟨by decide, by decide⟩

/-- C8 (amended): `AgentSelectorNode` maps the best agent's total score
to a confidence tier as: score ≥ 10 gives high, 5–9 gives medium, 1–4
gives low, and a best score of 0 gives confidence low with the configured
default agent substituted instead of any scored agent; for the
description `"Fix the React component styling"` under the default rules
the frontend-specialist scores 6 (keywords `react` and `component`;
`style` does not occur in the description as a substring) and is selected
with confidence medium. -/
theorem agentSelector_confidence_tiers (node_default : String)
    (rules : RuleSet) (inp : RoutingInputs)
    (hover : searchOverride inp.task_description.data = none)
    (b : String) (s : Nat)
    (hmax : maxByScore (routingScores rules inp) = some (b, s)) :
    ((s ≥ 10 → (agentSelectorExec node_default rules inp).agent = b ∧
        (agentSelectorExec node_default rules inp).confidence = "high") ∧
     (5 ≤ s ∧ s ≤ 9 → (agentSelectorExec node_default rules inp).agent = b ∧
        (agentSelectorExec node_default rules inp).confidence = "medium") ∧
     (1 ≤ s ∧ s ≤ 4 → (agentSelectorExec node_default rules inp).agent = b ∧
        (agentSelectorExec node_default rules inp).confidence = "low") ∧
     (s = 0 →
        (agentSelectorExec node_default rules inp).agent = rules.default_agent ∧
        (agentSelectorExec node_default rules inp).confidence = "low")) ∧
    ((agentSelectorExec "implementer" defaultRules c8Inputs).agent =
        "frontend-specialist" ∧
      (agentSelectorExec "implementer" defaultRules c8Inputs).confidence =
        "medium" ∧
      ("frontend-specialist", 6) ∈
        (agentSelectorExec "implementer" defaultRules c8Inputs).scores) := by
  constructor
  · refine ⟨?_, ?_, ?_, ?_⟩ <;> intro hs <;>
      simp only [agentSelectorExec, hover, hmax]
    · simp [hs]
    · have h10 : ¬ s ≥ 10 := by omega
      have h5 : s ≥ 5 := hs.1
      simp [h10, h5]
    · have h10 : ¬ s ≥ 10 := by omega
      have h5 : ¬ s ≥ 5 := by omega
      have h0 : s > 0 := by omega
      simp [h10, h5, h0]
    · have h10 : ¬ s ≥ 10 := by omega
      have h5 : ¬ s ≥ 5 := by omega
      have h0 : ¬ s > 0 := by omega
      simp [h10, h5, h0]
  · exact ⟨by decide, by decide, by decide⟩

/-- C8 witness: the tier theorem applied at the scenario input, whose
best score 6 lies in the medium band. -/
theorem agentSelector_confidence_tiers_witness :
    (agentSelectorExec "implementer" defaultRules c8Inputs).agent =
        "frontend-specialist" ∧
    (agentSelectorExec "implementer" defaultRules c8Inputs).confidence =
        "medium" :=
  ((agentSelector_confidence_tiers "implementer" defaultRules c8Inputs
      (by decide) "frontend-specialist" 6 (by decide)).1).2.1 (by omega)

/-- C9 (code bug): entering the `"complete"` phase reaches
`inputs["completed_tasks"] < inputs["total_tasks"]`, which compares the
completed id *list* (as `prep` returns it) against an integer and raises
`TypeError`; the guard therefore crashes instead of returning a
warning-only valid result as the claim (and the code's own
`# Allow but warn` comment) state. -/
theorem progressGuard_complete_phase_raises :
    guardExec c9Inputs =
      Except.error "TypeError: unsupported comparison between list and int" ∧
    c9Inputs.completed_tasks.length < c9Inputs.total_tasks :=
  ⟨rfl, by decide⟩

theorem charsStartWith_append (pre rest : List Char) :
    charsStartWith (pre ++ rest) pre = true := by
  induction pre with
  | nil => cases rest <;> rfl
  | cons c cs ih => simp [charsStartWith, ih]

theorem charsEndWith_append (pre suffix : List Char) :
    charsEndWith (pre ++ suffix) suffix = true := by
  unfold charsEndWith
  rw [List.reverse_append]
  exact charsStartWith_append _ _

theorem cleanupMatches_rotated (cfg : FileStoreCfg) (ts mt : Nat) :
    cleanupMatches cfg { name := rotatedName cfg ts, mtime := mt } = true := by
  have hstart : charsStartWith (rotatedName cfg ts)
      (cfg.session_id ++ [ '_' ]) = true := by
    have he : rotatedName cfg ts =
        (cfg.session_id ++ [ '_' ]) ++ (natChars ts ++ ".json".data) := by
      simp [rotatedName, List.append_assoc]
    rw [he]
    exact charsStartWith_append _ _
  have hend : charsEndWith (rotatedName cfg ts) (".json".data) = true := by
    have he : rotatedName cfg ts =
        (cfg.session_id ++ [ '_' ] ++ natChars ts) ++ ".json".data := by
      simp [rotatedName, List.append_assoc]
    rw [he]
    exact charsEndWith_append _ _
  simp [cleanupMatches, hstart, hend]

theorem rotatedName_inj (cfg : FileStoreCfg) {a b : Nat}
    (h : rotatedName cfg a = rotatedName cfg b) : a = b := by
  have hl := congrArg List.length h
  simp [rotatedName, natChars] at hl
  omega

theorem range'_pairwise_lt : ∀ (s n : Nat), (List.range' s n).Pairwise (· < ·)
  | _, 0 => List.Pairwise.nil
  | s, n + 1 => by
    rw [List.range'_succ]
    refine List.pairwise_cons.mpr ⟨?_, range'_pairwise_lt (s + 1) n⟩
    intro b hb
    rw [List.mem_range'] at hb
    obtain ⟨i, hi, rfl⟩ := hb
    omega

theorem rotatedRange_pairwise (cfg : FileStoreCfg) (start len : Nat) :
    (rotatedRange cfg start len).Pairwise (fun a b => entryKeyLE a b = true) := by
  unfold rotatedRange
  refine List.Pairwise.map _ ?_ (range'_pairwise_lt start len)
  intro a b hab
  simp [entryKeyLE, hab]

theorem rotatedRange_length (cfg : FileStoreCfg) (start len : Nat) :
    (rotatedRange cfg start len).length = len := by
  simp [rotatedRange]

theorem rotatedRange_append (cfg : FileStoreCfg) (start m n : Nat) :
    rotatedRange cfg start m ++ rotatedRange cfg (start + m) n =
      rotatedRange cfg start (m + n) := by
  unfold rotatedRange
  rw [← List.map_append, List.range'_append_1, Nat.add_comm n m]

/-- One cleanup pass over an ascending directory of rotated backups keeps
the `min len max_backups` most recent ones: the oldest are removed
first. -/
theorem cleanup_rotatedRange (cfg : FileStoreCfg) (start len : Nat) :
    cleanupBackups cfg (rotatedRange cfg start len) =
      rotatedRange cfg (start + (len - cfg.max_backups))
        (min len cfg.max_backups) := by
  have hfilter : (rotatedRange cfg start len).filter (cleanupMatches cfg) =
      rotatedRange cfg start len :=
    List.filter_eq_self.mpr (fun e he => by
      simp only [rotatedRange, List.mem_map] at he
      obtain ⟨ts, _, rfl⟩ := he
      exact cleanupMatches_rotated cfg ts ts)
  have hsorted : pySort entryKeyLE (rotatedRange cfg start len) =
      rotatedRange cfg start len :=
    pySort_of_sorted (rotatedRange_pairwise cfg start len)
  have hsplit : rotatedRange cfg start len =
      rotatedRange cfg start (len - cfg.max_backups) ++
        rotatedRange cfg (start + (len - cfg.max_backups))
          (min len cfg.max_backups) := by
    rw [rotatedRange_append]
    congr 1
    omega
  have htake : (rotatedRange cfg start len).take (len - cfg.max_backups) =
      rotatedRange cfg start (len - cfg.max_backups) := by
    rw [hsplit]
    exact List.take_left' (rotatedRange_length cfg start _)
  simp only [cleanupBackups]
  rw [hfilter, hsorted, rotatedRange_length, htake]
  rw [hsplit, List.filter_append]
  have h1 : (rotatedRange cfg start (len - cfg.max_backups)).filter
      (fun e =>
        !(((rotatedRange cfg start (len - cfg.max_backups)).map
            DirEntry.name).contains e.name)) = [] := by
    refine List.filter_eq_nil_iff.mpr (fun e he => ?_)
    have hm : e.name ∈
        (rotatedRange cfg start (len - cfg.max_backups)).map DirEntry.name :=
      List.mem_map_of_mem _ he
    simp [hm]
  have h2 : (rotatedRange cfg (start + (len - cfg.max_backups))
        (min len cfg.max_backups)).filter
      (fun e =>
        !(((rotatedRange cfg start (len - cfg.max_backups)).map
            DirEntry.name).contains e.name)) =
      rotatedRange cfg (start + (len - cfg.max_backups))
        (min len cfg.max_backups) := by
    refine List.filter_eq_self.mpr (fun e he => ?_)
    simp only [rotatedRange, List.mem_map] at he
    obtain ⟨ts, hts, rfl⟩ := he
    rw [List.mem_range'] at hts
    obtain ⟨i, hi, hts'⟩ := hts
    have hnot : rotatedName cfg ts ∉
        (rotatedRange cfg start (len - cfg.max_backups)).map DirEntry.name := by
      intro hmem
      simp only [rotatedRange, List.map_map, List.mem_map, Function.comp,
        List.mem_range'] at hmem
      obtain ⟨ts0, ⟨i0, hi0, rfl⟩, heq⟩ := hmem
      have := rotatedName_inj cfg heq
      omega
    simp [hnot]
  rw [h1, h2, List.nil_append]

/-- After `m + 1` saves from an empty directory the primary file exists
and the backup directory holds the `min m max_backups` most recent
rotated backups, with timestamps ending at `m - 1`. -/
theorem iterSave_invariant (cfg : FileStoreCfg) (hb : cfg.auto_backup = true) :
    ∀ m : Nat, iterSave cfg (m + 1) initStore =
      { primaryExists := true, clock := m,
        backupDir := rotatedRange cfg (m - min m cfg.max_backups)
          (min m cfg.max_backups) } := by
  intro m
  induction m with
  | zero =>
    simp [iterSave, saveStore, initStore, rotatedRange]
  | succ m ih =>
    have hstep : iterSave cfg (m + 1 + 1) initStore =
        saveStore cfg (iterSave cfg (m + 1) initStore) := rfl
    rw [hstep, ih]
    simp only [saveStore, createBackup, hb, Bool.true_and, if_true]
    have happ : rotatedRange cfg (m - min m cfg.max_backups)
          (min m cfg.max_backups) ++ [{ name := rotatedName cfg m, mtime := m }] =
        rotatedRange cfg (m - min m cfg.max_backups)
          (min m cfg.max_backups + 1) := by
      have hsm : (m - min m cfg.max_backups) + 1 * (min m cfg.max_backups) = m := by
        omega
      unfold rotatedRange
      rw [List.range'_concat, hsm, List.map_append]
      simp
    have h1 : (m - min m cfg.max_backups) +
        ((min m cfg.max_backups + 1) - cfg.max_backups) =
        (m + 1) - min (m + 1) cfg.max_backups := by omega
    have h2 : min (min m cfg.max_backups + 1) cfg.max_backups =
        min (m + 1) cfg.max_backups := by omega
    rw [happ, cleanup_rotatedRange, h1, h2]

/-- C5: for every `N ≥ 1` and every `FileStore` configured with
`auto_backup` enabled and `max_backups = k`, after `N` calls to `save`
(with no interleaved checkpoints) exactly `min (N-1) k` rotated backup
files for that session exist in the backup directory, and when eviction
occurs the oldest backup is removed first: the surviving backups are
exactly the `min (N-1) k` most recent ones. -/
theorem fileStore_backup_bound (cfg : FileStoreCfg)
    (hb : cfg.auto_backup = true) (N : Nat) (hN : 1 ≤ N) :
    (iterSave cfg N initStore).backupDir =
      rotatedRange cfg (N - 1 - min (N - 1) cfg.max_backups)
        (min (N - 1) cfg.max_backups) ∧
    (iterSave cfg N initStore).backupDir.length =
      min (N - 1) cfg.max_backups := by
  obtain ⟨m, rfl⟩ : ∃ m, N = m + 1 := ⟨N - 1, by omega⟩
  rw [iterSave_invariant cfg hb m]
  simp [rotatedRange_length]

/-- C5 witness: three saves with `max_backups = 1` leave exactly
`min 2 1 = 1` rotated backup, the most recent one (timestamp 1). -/
theorem fileStore_backup_bound_witness :
    (iterSave c5Cfg 3 initStore).backupDir.length =
      min (3 - 1) c5Cfg.max_backups ∧
    (iterSave c5Cfg 3 initStore).backupDir =
      [{ name := rotatedName c5Cfg 1, mtime := 1 }] :=
  ⟨(fileStore_backup_bound c5Cfg rfl 3 (by omega)).2, by decide⟩

/-- C1 (code bug): a checkpoint file is deleted by the backup rotation.
With session id "s" and `max_backups = 1`, write a checkpoint, then save
twice: the second save's `_cleanup_backups` collects every file whose
name starts with the session prefix — which includes the checkpoint — and
removes the oldest, the checkpoint, leaving only the rotated backup.  The
claim that only rotated backup files are ever evicted therefore fails;
`checkpoint`'s own docstring intends checkpoints to be permanent. -/
theorem fileStore_cleanup_deletes_checkpoint :
    (checkpointStore c5Cfg none initStore).backupDir =
      [{ name := checkpointName c5Cfg none 0, mtime := 0 }] ∧
    (saveStore c5Cfg (saveStore c5Cfg
        (checkpointStore c5Cfg none initStore))).backupDir =
      [{ name := rotatedName c5Cfg 1, mtime := 1 }] ∧
    checkpointName c5Cfg none 0 ∉
      ((saveStore c5Cfg (saveStore c5Cfg
          (checkpointStore c5Cfg none initStore))).backupDir.map
        DirEntry.name) :=
  ⟨by decide, by decide, by decide⟩

end PocketAgentOS
